import Mathlib

/-!
Shallow embedding of the Kaleido mining bot (src/miner.js) and proofs of its
specified properties.  JavaScript numbers are modelled as rationals, with a
separate `JVal` type for the degenerate values (NaN, infinities, non-numbers)
that the validation routine must reject.
-/

namespace Kaleido

/-- The earnings snapshot `{ total, pending, paid }` held in
`this.currentEarnings` (miner.js line 14). -/
structure Earnings where
  total : ℚ
  pending : ℚ
  paid : ℚ
deriving Repr, DecidableEq

/-- A JavaScript value as seen by `validateEarnings` (miner.js lines 40-47):
either a number (finite, NaN, or an infinity) or some non-number value. -/
inductive JVal where
  | nonNumber
  | nan
  | posInf
  | negInf
  | num (q : ℚ)
deriving Repr, DecidableEq

/-- Embedding of `validateEarnings` (miner.js lines 40-47): the value must be
a number (`typeof earnings === 'number'`), not NaN, finite, and `>= 0`. -/
def validateEarnings : JVal → Bool
  | .num q => decide (0 ≤ q)
  | _ => false

/-- The fixed synthetic hashrate `this.stats.hashrate = 75.5` (miner.js line 23). -/
def hashrate : ℚ := 755 / 10

/-- The fixed scaling constant `0.0001` in `calculateEarnings` (miner.js line 134). -/
def baseFactor : ℚ := 1 / 10000

/-- Embedding of `calculateEarnings` (miner.js lines 128-135).  `startTime` is
`this.miningState.startTime` (a timestamp in milliseconds, or `null`), `now` is
`Date.now()`, and `referralBonus` is `this.referralBonus`.  With a missing
start time the function logs a warning and returns 0; otherwise it returns
`(hashrate * timeElapsed * 0.0001) * (1 + referralBonus)` where
`timeElapsed = (now - startTime) / 1000`. -/
def calculateEarnings (startTime : Option ℚ) (now : ℚ) (referralBonus : ℚ) : ℚ :=
  match startTime with
  | none => 0
  | some s => (hashrate * ((now - s) / 1000) * baseFactor) * (1 + referralBonus)

/-- Outcome of the remote `POST /update-balance` call, after the retry wrapper
has run: the transport failed for good, the server replied without `success`,
or the server replied `{ success: true, balance }`. -/
inductive Resp where
  | netFail
  | notSuccess
  | success (balance : ℚ)
deriving Repr, DecidableEq

/-- Result of one `updateBalance` invocation: the new in-memory snapshot, the
payload sent to the server (`none` when no remote call was made), whether a
remote call happened at all, and whether `saveSession` ran. -/
structure UpdOutcome where
  earnings : Earnings
  payload : Option Earnings
  calledRemote : Bool
  savedSession : Bool
deriving Repr, DecidableEq

/-- The numeric value of a `JVal`; only meaningful on values that pass
`validateEarnings`. -/
def JVal.toQ : JVal → ℚ
  | .num q => q
  | _ => 0

/-- Embedding of `updateBalance` (miner.js lines 137-179).  `cur` is
`this.currentEarnings`, `newEarnings` the result of `calculateEarnings`,
`finalUpdate` the flag, and `resp` the eventual outcome of the retried remote
call.  An invalid increment aborts the cycle before any remote call; a
`success` reply replaces the snapshot with the merge of the server balance and
the locally computed pending/paid split and saves the session; any other reply
leaves the snapshot untouched. -/
def updateBalance (cur : Earnings) (newEarnings : JVal) (finalUpdate : Bool)
    (resp : Resp) : UpdOutcome :=
  if validateEarnings newEarnings then
    let e := newEarnings.toQ
    let payload : Earnings :=
      { total := cur.total + e
        pending := if finalUpdate then 0 else e
        paid := if finalUpdate then cur.paid + e else cur.paid }
    match resp with
    | .success b =>
        { earnings :=
            { total := b
              pending := if finalUpdate then 0 else e
              paid := if finalUpdate then cur.paid + e else cur.paid }
          payload := some payload
          calledRemote := true
          savedSession := true }
    | .notSuccess =>
        { earnings := cur, payload := some payload, calledRemote := true,
          savedSession := false }
    | .netFail =>
        { earnings := cur, payload := some payload, calledRemote := true,
          savedSession := false }
  else
    { earnings := cur, payload := none, calledRemote := false,
      savedSession := false }

/-- The fresh earnings snapshot assigned by `initialize` when no prior session
exists (miner.js lines 92-96): `{ total: referralBonus, pending: 0, paid: 0 }`. -/
def freshEarnings (referralBonus : ℚ) : Earnings :=
  { total := referralBonus, pending := 0, paid := 0 }

/-- Embedding of `stop` (miner.js lines 204-209): one final `updateBalance`
with the final flag set, then return `this.currentEarnings.paid`. -/
def stop (cur : Earnings) (newEarnings : JVal) (resp : Resp) : UpdOutcome × ℚ :=
  let u := updateBalance cur newEarnings true resp
  (u, u.earnings.paid)

end Kaleido

namespace Kaleido

/-- C3: with a known start time the accrual is
`hashrate * t * 0.0001 * (1 + b)` for elapsed seconds `t` (so 0 at `t = 0`),
and with a `null` start time it is exactly 0. -/
theorem calculateEarnings_spec (s t b : ℚ) (ht : 0 ≤ t) (hb : 0 ≤ b) :
    calculateEarnings (some s) (s + 1000 * t) b = hashrate * t * baseFactor * (1 + b) ∧
    calculateEarnings (some s) s b = 0 ∧
    (∀ now : ℚ, calculateEarnings none now b = 0) := by
  refine ⟨?_, ?_, fun now => rfl⟩
  · unfold calculateEarnings
    ring_nf
  · unfold calculateEarnings
    ring_nf

/-- Witness for `calculateEarnings_spec` at `s = 5`, `t = 2`, `b = 1`. -/
theorem calculateEarnings_spec_witness :
    calculateEarnings (some 5) (5 + 1000 * 2) 1 = hashrate * 2 * baseFactor * (1 + 1) ∧
    calculateEarnings (some 5) 5 1 = 0 ∧
    (∀ now : ℚ, calculateEarnings none now 1 = 0) :=
  calculateEarnings_spec 5 2 1 (by norm_num) (by norm_num)

/-- C4: `validateEarnings` accepts a value iff it is a (finite) number `≥ 0`;
in particular it accepts 0 and rejects NaN, negatives and both infinities. -/
theorem validateEarnings_spec :
    (∀ v : JVal, validateEarnings v = true ↔ ∃ q : ℚ, v = JVal.num q ∧ 0 ≤ q) ∧
    validateEarnings (JVal.num 0) = true ∧
    validateEarnings JVal.nan = false ∧
    validateEarnings JVal.posInf = false ∧
    validateEarnings JVal.negInf = false ∧
    (∀ q : ℚ, q < 0 → validateEarnings (JVal.num q) = false) := by
  refine ⟨fun v => ?_, by decide, rfl, rfl, rfl, fun q hq => ?_⟩
  · cases v with
    | num q =>
        simp only [validateEarnings, decide_eq_true_eq]
        constructor
        · intro h; exact ⟨q, rfl, h⟩
        · rintro ⟨q', hq', h⟩
          cases hq'
          exact h
    | nonNumber => simp [validateEarnings]
    | nan => simp [validateEarnings]
    | posInf => simp [validateEarnings]
    | negInf => simp [validateEarnings]
  · simp only [validateEarnings, decide_eq_true_eq]
    simp [not_le.mpr hq]

/-- C1: on a successful update-balance call the snapshot becomes: `total` the
server-returned balance, `pending` 0 on a final update and the just-computed
increment otherwise, `paid` increased by the increment exactly on a final
update. -/
theorem updateBalance_success_spec (cur : Earnings) (e b : ℚ) (finalUpdate : Bool)
    (he : 0 ≤ e) :
    (updateBalance cur (JVal.num e) finalUpdate (Resp.success b)).earnings =
      { total := b
        pending := if finalUpdate then 0 else e
        paid := if finalUpdate then cur.paid + e else cur.paid } := by
  simp [updateBalance, validateEarnings, he, JVal.toQ]

/-- Witness for `updateBalance_success_spec` on a concrete state. -/
theorem updateBalance_success_spec_witness :
    (updateBalance ⟨10, 1, 4⟩ (JVal.num 2) true (Resp.success 7)).earnings =
      { total := 7, pending := if true then 0 else 2,
        paid := if true then (4 : ℚ) + 2 else 4 } :=
  updateBalance_success_spec ⟨10, 1, 4⟩ 2 7 true (by norm_num)

/-- C2 counterexample: the server is free to return any balance, so a
successful sync can leave `total < paid`.  From the snapshot
`{total := 5, pending := 0, paid := 3}`, a non-final success with server
balance 1 yields `{total := 1, pending := 0, paid := 3}`. -/
theorem updateBalance_total_lt_paid_cex :
    (updateBalance ⟨5, 0, 3⟩ (JVal.num 0) false (Resp.success 1)).earnings.total <
      (updateBalance ⟨5, 0, 3⟩ (JVal.num 0) false (Resp.success 1)).earnings.paid := by
  norm_num [updateBalance, validateEarnings, JVal.toQ]

/-- C2 amended: after a successful sync, `total ≥ paid` holds provided the
server-returned balance is at least the snapshot's new `paid` value (the old
`paid`, plus the increment on a final update). -/
theorem updateBalance_total_ge_paid (cur : Earnings) (e b : ℚ) (finalUpdate : Bool)
    (he : 0 ≤ e)
    (hb : (if finalUpdate then cur.paid + e else cur.paid) ≤ b) :
    (updateBalance cur (JVal.num e) finalUpdate (Resp.success b)).earnings.paid ≤
      (updateBalance cur (JVal.num e) finalUpdate (Resp.success b)).earnings.total := by
  simp only [updateBalance_success_spec cur e b finalUpdate he]
  exact hb

/-- Witness for `updateBalance_total_ge_paid` on a concrete state. -/
theorem updateBalance_total_ge_paid_witness :
    (updateBalance ⟨5, 0, 3⟩ (JVal.num 2) false (Resp.success 9)).earnings.paid ≤
      (updateBalance ⟨5, 0, 3⟩ (JVal.num 2) false (Resp.success 9)).earnings.total :=
  updateBalance_total_ge_paid ⟨5, 0, 3⟩ 2 9 false (by norm_num) (by norm_num)

/-- C5: when the computed increment fails `validateEarnings`, `updateBalance`
makes no remote call (so no retry either), sends no payload, writes no session,
and leaves the snapshot unchanged. -/
theorem updateBalance_invalid_noop (cur : Earnings) (v : JVal) (finalUpdate : Bool)
    (resp : Resp) (hv : validateEarnings v = false) :
    updateBalance cur v finalUpdate resp =
      { earnings := cur, payload := none, calledRemote := false,
        savedSession := false } := by
  simp [updateBalance, hv]

/-- Witness for `updateBalance_invalid_noop` with a NaN increment. -/
theorem updateBalance_invalid_noop_witness :
    updateBalance ⟨5, 0, 3⟩ JVal.nan false Resp.netFail =
      { earnings := ⟨5, 0, 3⟩, payload := none, calledRemote := false,
        savedSession := false } :=
  updateBalance_invalid_noop ⟨5, 0, 3⟩ JVal.nan false Resp.netFail rfl

/-- C8 counterexample: for a freshly initialized agent (snapshot
`{total: referralBonus, pending: 0, paid: 0}` with referral bonus 1/2),
`stop()` before any successful sync does not return the referral-bonus-only
starting total: with final increment 2 and a successful final update it
returns 0 + 2 = 2, and with a failed final update it returns the fresh paid 0;
neither equals the starting total 1/2. -/
theorem stop_fresh_cex :
    (stop (freshEarnings (1/2)) (JVal.num 2) (Resp.success 7)).2 ≠
      (freshEarnings (1/2)).total ∧
    (stop (freshEarnings (1/2)) (JVal.num 2) Resp.netFail).2 ≠
      (freshEarnings (1/2)).total := by
  constructor <;> norm_num [stop, updateBalance, validateEarnings, JVal.toQ, freshEarnings]

/-- C8 amended: for a freshly initialized agent, `stop()` before any successful
sync returns the final increment when the final update succeeds and the fresh
`paid` (0) when it fails; in general, after a completed cycle confirmed `paid`,
a successful final update makes `stop()` return that confirmed `paid` plus the
final increment. -/
theorem stop_returns_paid (cur : Earnings) (rb e b : ℚ) (he : 0 ≤ e) :
    (stop (freshEarnings rb) (JVal.num e) (Resp.success b)).2 = e ∧
    (stop (freshEarnings rb) (JVal.num e) Resp.netFail).2 = 0 ∧
    (stop cur (JVal.num e) (Resp.success b)).2 = cur.paid + e := by
  refine ⟨?_, ?_, ?_⟩ <;>
    simp [stop, updateBalance, validateEarnings, he, JVal.toQ, freshEarnings]

/-- Witness for `stop_returns_paid` on concrete values. -/
theorem stop_returns_paid_witness :
    (stop (freshEarnings 3) (JVal.num 2) (Resp.success 7)).2 = 2 ∧
    (stop (freshEarnings 3) (JVal.num 2) Resp.netFail).2 = 0 ∧
    (stop ⟨10, 1, 4⟩ (JVal.num 2) (Resp.success 7)).2 = (4 : ℚ) + 2 :=
  stop_returns_paid ⟨10, 1, 4⟩ 3 2 7 (by norm_num)

/-- One run of the `for` loop of `retryRequest` (miner.js lines 116-126),
with `fuel = retries - i` iterations remaining.  Attempt `i` calls the request
function; on success the loop returns the result, on failure it rethrows when
`i` is the last index and otherwise sleeps `2000 * (i + 1)` ms and continues.
The result records the loop's outcome (`none` when the loop body never ran),
the number of calls made, and the list of inter-call delays in order. -/
def retryLoop {ε α : Type} (f : ℕ → Except ε α) (retries : ℕ) :
    ℕ → ℕ → Option (Except ε α) × ℕ × List ℕ
  | _, 0 => (none, 0, [])
  | i, fuel + 1 =>
    match f i with
    | .ok a => (some (.ok a), 1, [])
    | .error err =>
      if i = retries - 1 then (some (.error err), 1, [])
      else
        ((retryLoop f retries (i + 1) fuel).1,
         (retryLoop f retries (i + 1) fuel).2.1 + 1,
         2000 * (i + 1) :: (retryLoop f retries (i + 1) fuel).2.2)

/-- Embedding of `retryRequest` (miner.js lines 116-126): run the loop from
`i = 0` with `retries` iterations available.  `f i` models what the `i`-th
call of `requestFn` does. -/
def retryRequest {ε α : Type} (f : ℕ → Except ε α) (retries : ℕ) :
    Option (Except ε α) × ℕ × List ℕ :=
  retryLoop f retries 0 retries

/-- When every attempt fails, the loop makes one call per remaining iteration
and ends by rethrowing the last attempt's error. -/
theorem retryLoop_all_fail {ε α : Type} (f : ℕ → Except ε α) (e : ℕ → ε)
    (hf : ∀ j, f j = .error (e j)) :
    ∀ fuel i retries, i + fuel = retries → 1 ≤ fuel →
      (retryLoop f retries i fuel).1 = some (.error (e (retries - 1))) ∧
      (retryLoop f retries i fuel).2.1 = fuel := by
  intro fuel
  induction fuel with
  | zero => intro i retries _ h1; omega
  | succ n ih =>
    intro i retries hir _
    rcases Nat.eq_zero_or_pos n with hn | hn
    · subst hn
      have hi : i = retries - 1 := by omega
      simp [retryLoop, hf, hi]
    · have hi : ¬ i = retries - 1 := by omega
      have h2 := ih (i + 1) retries (by omega) hn
      simp only [retryLoop, hf, if_neg hi]
      exact ⟨h2.1, by rw [h2.2]⟩

/-- C6: with `retries = 3` and a request that fails on its first two calls and
succeeds on the third, the wrapper makes exactly 3 calls, the inter-call delays
are 2000 ms then 4000 ms (strictly increasing), and the success result is
returned; with a request that fails on every call and any bound `n ≥ 1`, the
wrapper makes exactly `n` calls and propagates the last failure. -/
theorem retryRequest_spec {ε α : Type} (f g : ℕ → Except ε α) (a : α)
    (e0 e1 : ε) (err : ℕ → ε) (n : ℕ)
    (h0 : f 0 = .error e0) (h1 : f 1 = .error e1) (h2 : f 2 = .ok a)
    (hg : ∀ j, g j = .error (err j)) (hn : 1 ≤ n) :
    retryRequest f 3 = (some (.ok a), 3, [2000, 4000]) ∧
    (2000 : ℕ) < 4000 ∧
    (retryRequest g n).1 = some (.error (err (n - 1))) ∧
    (retryRequest g n).2.1 = n := by
  have hall := retryLoop_all_fail g err hg n 0 n (by omega) hn
  refine ⟨?_, by norm_num, hall.1, hall.2⟩
  simp [retryRequest, retryLoop, h0, h1, h2]

/-- Witness for `retryRequest_spec` with concrete request functions over
`ε = ℕ`, `α = ℕ`. -/
theorem retryRequest_spec_witness :
    retryRequest (fun i => if i = 2 then Except.ok 7 else Except.error i) 3 =
      (some (Except.ok 7), 3, [2000, 4000]) ∧
    (2000 : ℕ) < 4000 ∧
    (retryRequest (fun i : ℕ => (Except.error i : Except ℕ ℕ)) 3).1 =
      some (Except.error (3 - 1)) ∧
    (retryRequest (fun i : ℕ => (Except.error i : Except ℕ ℕ)) 3).2.1 = 3 :=
  retryRequest_spec (fun i => if i = 2 then Except.ok 7 else Except.error i)
    (fun i : ℕ => (Except.error i : Except ℕ ℕ)) 7 0 1 (fun i => i) 3
    rfl rfl rfl (fun _ => rfl) (by norm_num)

/-- A JSON field holding a number, as read back by `loadSession`: the field
can be absent (so the assignment stores `undefined`), `null`, or a number. -/
inductive NumField where
  | absent
  | jnull
  | num (q : ℚ)
deriving Repr, DecidableEq

/-- The content of a per-wallet session file as `loadSession`
(miner.js lines 49-61) sees it: the file can be missing or unreadable
(`fs.readFile` throws), hold text that is not valid JSON (`JSON.parse`
throws), parse to JSON `null` (property access throws), parse to a non-object
JSON value (every property reads as `undefined`), or parse to a JSON object
with whatever subset of the three session fields is present. -/
inductive SessionFile where
  | missing
  | invalidJson
  | jsonNull
  | jsonNonObj
  | jsonObj (startTime : NumField) (earnings : Option Earnings)
      (referralBonus : Option ℚ)
deriving Repr, DecidableEq

/-- The in-memory data persisted by `saveSession` (miner.js lines 63-75):
`this.miningState.startTime` (possibly `null`), `this.currentEarnings`,
`this.referralBonus`. -/
structure SessionRecord where
  startTime : Option ℚ
  earnings : Earnings
  referralBonus : ℚ
deriving Repr, DecidableEq

/-- Embedding of `saveSession` (miner.js lines 63-75): serialize the session
record to a JSON object with all three fields. -/
def saveSession (r : SessionRecord) : SessionFile :=
  .jsonObj
    (match r.startTime with | none => .jnull | some t => .num t)
    (some r.earnings)
    (some r.referralBonus)

/-- Embedding of `loadSession` (miner.js lines 49-61).  `none` means the
`catch` branch ran and the function returned `false` ("no prior session"):
this happens when the file is missing/unreadable, when its text is not
parseable JSON, or when it parses to `null` (the property accesses throw).
Otherwise the function assigns the three fields (absent fields assign
`undefined`) and returns `true`. -/
def loadSession : SessionFile → Option (NumField × Option Earnings × Option ℚ)
  | .missing => none
  | .invalidJson => none
  | .jsonNull => none
  | .jsonNonObj => some (.absent, none, none)
  | .jsonObj s e r => some (s, e, r)

/-- The start-time value a loaded field assigns into `this.miningState
.startTime` (`undefined` and `null` both leave no usable start time). -/
def NumField.toStartTime : NumField → Option ℚ
  | .num t => some t
  | _ => none

/-- C7: saving a session record and loading it back succeeds and restores
exactly the persisted start time, earnings snapshot and referral bonus; a
missing/unreadable file or one whose content is malformed (not parseable JSON,
or JSON `null`) loads as "no prior session", so the agent takes the
fresh-start path instead of failing. -/
theorem saveSession_loadSession_roundtrip :
    (∀ r : SessionRecord, ∃ st : NumField,
      loadSession (saveSession r) = some (st, some r.earnings, some r.referralBonus) ∧
      st.toStartTime = r.startTime) ∧
    loadSession .missing = none ∧
    loadSession .invalidJson = none ∧
    loadSession .jsonNull = none := by
  refine ⟨fun r => ?_, rfl, rfl, rfl⟩
  cases h : r.startTime with
  | none => exact ⟨.jnull, by simp [saveSession, loadSession, h], by simp [NumField.toStartTime, h]⟩
  | some t => exact ⟨.num t, by simp [saveSession, loadSession, h], by simp [NumField.toStartTime, h]⟩

/-- Test for a hexadecimal character, from the character class of the wallet
regex `/^0x[a-fA-F0-9]{40}$/` (miner.js line 232). -/
def isHexChar (c : Char) : Bool :=
  ('0' ≤ c && c ≤ '9') || ('a' ≤ c && c ≤ 'f') || ('A' ≤ c && c ≤ 'F')

/-- Embedding of the wallet regex test `/^0x[a-fA-F0-9]{40}$/.test(line)`
(miner.js line 232): the string must be `0x` followed by exactly 40 hex
characters. -/
def isValidWallet (s : String) : Bool :=
  match s.data with
  | '0' :: 'x' :: rest => rest.length == 40 && rest.all isHexChar
  | _ => false

/-- Embedding of JavaScript `data.split('\n')` over the character list of the
file content: splits on every newline, keeping empty pieces. -/
def splitLines : List Char → List (List Char)
  | [] => [[]]
  | c :: rest =>
    if c = '\n' then [] :: splitLines rest
    else
      match splitLines rest with
      | [] => [[c]]
      | l :: ls => (c :: l) :: ls

/-- The whitespace characters removed by `line.trim()` (the forms that occur
in a line-delimited ASCII wallet file). -/
def isWS (c : Char) : Bool :=
  c = ' ' || c = '\t' || c = '\n' || c = '\r'

/-- Embedding of `line.trim()`: remove leading and trailing whitespace. -/
def trimChars (cs : List Char) : List Char :=
  ((cs.dropWhile isWS).reverse.dropWhile isWS).reverse

/-- Embedding of `loadWallets` (miner.js lines 226-237) on a successfully read
file: split the content on newlines, trim each line, and keep exactly the
lines matching the wallet pattern. -/
def loadWallets (content : String) : List String :=
  ((splitLines content.data).map (fun l => String.mk (trimChars l))).filter
    isValidWallet

/-- The wallet list the coordinator obtains: `[]` when the file could not be
read (the `catch` branch of `loadWallets`), otherwise the filtered lines. -/
def walletsFrom : Option String → List String
  | none => []
  | some content => loadWallets content

/-- Embedding of the bot construction in `MiningCoordinator.start`
(miner.js lines 256-260): one bot per wallet, with 1-based index. -/
def mkBots (wallets : List String) : List (String × ℕ) :=
  wallets.enum.map (fun p => (p.2, p.1 + 1))

/-- The coordinator's mutable state (miner.js lines 215-224). -/
structure Coordinator where
  bots : List (String × ℕ)
  totalPaid : ℚ
  isRunning : Bool
deriving Repr, DecidableEq

/-- The coordinator state after first construction (miner.js lines 221-223). -/
def newCoordinator : Coordinator :=
  { bots := [], totalPaid := 0, isRunning := false }

/-- How one call to `MiningCoordinator.start` ended. -/
inductive StartOutcome where
  | alreadyRunning
  | noWallets
  | started (n : ℕ)
deriving Repr, DecidableEq

/-- Embedding of `MiningCoordinator.start` (miner.js lines 239-274): bail out
when already running; otherwise set `isRunning`, load the wallet list, bail
out (leaving `isRunning` set) when it is empty, and otherwise create one bot
per wallet. -/
def coordStart (c : Coordinator) (walletFile : Option String) :
    Coordinator × StartOutcome :=
  if c.isRunning then (c, .alreadyRunning)
  else
    if (walletsFrom walletFile).length = 0 then
      ({ c with isRunning := true }, .noWallets)
    else
      ({ c with isRunning := true, bots := mkBots (walletsFrom walletFile) },
        .started (walletsFrom walletFile).length)

/-- C9: the loaded wallet set is exactly the trimmed lines matching the
pattern, in file order (a sublist of the trimmed lines, all valid, and
containing every valid trimmed line); one bot is created per wallet with a
stable 1-based index; and the concrete two-line file with one 39-hex-char line
and one 40-hex-char line yields exactly one bot, with index 1. -/
theorem loadWallets_mkBots_spec :
    loadWallets "0xaaaaaaaaaaaaaaaaaaaaaaaaaaaaaaaaaaaaaaa\n0xaaaaaaaaaaaaaaaaaaaaaaaaaaaaaaaaaaaaaaaa"
      = ["0xaaaaaaaaaaaaaaaaaaaaaaaaaaaaaaaaaaaaaaaa"] ∧
    mkBots (loadWallets "0xaaaaaaaaaaaaaaaaaaaaaaaaaaaaaaaaaaaaaaa\n0xaaaaaaaaaaaaaaaaaaaaaaaaaaaaaaaaaaaaaaaa")
      = [("0xaaaaaaaaaaaaaaaaaaaaaaaaaaaaaaaaaaaaaaaa", 1)] ∧
    (∀ content : String,
      List.Sublist (loadWallets content)
        ((splitLines content.data).map (fun l => String.mk (trimChars l)))) ∧
    (∀ content : String, ∀ w : String,
      w ∈ loadWallets content ↔
        w ∈ (splitLines content.data).map (fun l => String.mk (trimChars l)) ∧
          isValidWallet w = true) ∧
    (∀ ws : List String, (mkBots ws).length = ws.length) ∧
    (∀ ws : List String, ∀ i : ℕ,
      (mkBots ws)[i]? = ws[i]?.map (fun w => (w, i + 1))) := by
  refine ⟨by decide, by decide, fun content => ?_, fun content w => ?_,
    fun ws => ?_, fun ws i => ?_⟩
  · exact List.filter_sublist _
  · simp [loadWallets, List.mem_filter]
  · simp [mkBots]
  · simp [mkBots, List.getElem?_map, List.getElem?_enum, Option.map_map]
    rfl

/-- C10: when a start attempt finds an empty (or unloadable) wallet list, it
reports the no-wallets abort but leaves `isRunning` set with no bots created,
and from that state any later start attempt, with any wallet file, returns the
same state unchanged with the already-running outcome, so no bots can ever be
created in that process. -/
theorem coordStart_empty_abort_sticks (c : Coordinator) (wf wf2 : Option String)
    (hr : c.isRunning = false) (hb : c.bots = [])
    (hw : walletsFrom wf = []) :
    (coordStart c wf).2 = StartOutcome.noWallets ∧
    (coordStart c wf).1.isRunning = true ∧
    (coordStart c wf).1.bots = [] ∧
    coordStart (coordStart c wf).1 wf2 =
      ((coordStart c wf).1, StartOutcome.alreadyRunning) := by
  simp [coordStart, hr, hb, hw]

/-- Witness for `coordStart_empty_abort_sticks`: a fresh coordinator, an empty
wallet file, then a retry with a wallet file holding one valid address. -/
theorem coordStart_empty_abort_sticks_witness :
    (coordStart newCoordinator (some "")).2 = StartOutcome.noWallets ∧
    (coordStart newCoordinator (some "")).1.isRunning = true ∧
    (coordStart newCoordinator (some "")).1.bots = [] ∧
    coordStart (coordStart newCoordinator (some "")).1
        (some "0xaaaaaaaaaaaaaaaaaaaaaaaaaaaaaaaaaaaaaaaa") =
      ((coordStart newCoordinator (some "")).1, StartOutcome.alreadyRunning) :=
  coordStart_empty_abort_sticks newCoordinator (some "")
    (some "0xaaaaaaaaaaaaaaaaaaaaaaaaaaaaaaaaaaaaaaaa") rfl rfl (by decide)

/-- Witness for `validateEarnings_spec`: its negative-rejection clause applied
at the concrete value -1. -/
theorem validateEarnings_spec_witness :
    validateEarnings (JVal.num (-1)) = false :=
  validateEarnings_spec.2.2.2.2.2 (-1) (by norm_num)
